import Mathlib

/-!
Shallow embedding of the Forgotten Hall team-assignment search engine of
`src/sr/app/routine/forgotten_hall_app.py` (classes `ForgottenHallTeamModule`,
`ForgottenHallNodeTeam`, `ForgottenHallNodeTeamScore`, `ForgottenHallMissionTeam`
and the static method `ForgottenHallApp.search_best_mission_team`).

Python floats are modelled as exact rationals (`ℚ`); Python sets of character
ids are modelled as duplicate-free lists in insertion order (all set operations
used by the code are membership, insertion, removal and size, none of which
depend on iteration order).  Mutation-plus-backtracking in the Python `dfs` is
modelled by pure state passing: the code's `pop_from_node` / phase-restore pair
exactly inverts the preceding `add_to_node` / phase-stamp pair, so the
functional recursion simply reuses the unmodified team value.
-/

attribute [local semireducible] Rat.mul Rat.add Rat.sub Rat.inv

namespace ForgottenHall

/-- Modelled from the spec: the character registry of `sr/const/character_const.py`
is not part of the sources.  Per spec §3, a character has a unique id, a combat
affinity from a closed enumeration (modelled as `Nat` codes) and a role path
classified into exactly one of three disjoint categories. -/
inductive CharacterPath where
  | attack : CharacterPath
  | survival : CharacterPath
  | support : CharacterPath
  deriving DecidableEq

/-- Modelled from the spec: an immutable character reference entity (spec §3),
`CharacterId -> {affinity: Affinity, role_path: RolePath}` (spec §6). -/
structure Character where
  id : String
  combat_type : Nat
  path : CharacterPath
  deriving DecidableEq

/-- Modelled from the spec: the read-only character registry plus the identity
of the distinguished Silverwolf character (spec §6).  `char` replaces
`get_character_by_id`; role tests like `is_attack_character` become path
inspections of the looked-up character. -/
structure CharacterRegistry where
  char : String → Character
  silver_id : String

/-- Embeds `ForgottenHallTeamModule`: a named, user-configured group of character ids. -/
structure TeamModule where
  module_name : String
  combat_type : String
  module_type : String
  character_id_list : List String
  deriving DecidableEq

variable (reg : CharacterRegistry)

/-- Embeds `ForgottenHallTeamModule.with_attack`: some member is an attack-path character. -/
def TeamModule.with_attack (m : TeamModule) : Bool :=
  m.character_id_list.any (fun character_id => (reg.char character_id).path = CharacterPath.attack)

/-- Embeds `ForgottenHallTeamModule.with_silver`: `SILVERWOLF.id in self.character_id_list`. -/
def TeamModule.with_silver (m : TeamModule) : Bool :=
  m.character_id_list.any (fun character_id => character_id = reg.silver_id)

/-- Embeds `ForgottenHallTeamModule.with_survival`: some member is a survival-path character. -/
def TeamModule.with_survival (m : TeamModule) : Bool :=
  m.character_id_list.any (fun character_id => (reg.char character_id).path = CharacterPath.survival)

/-- Embeds `ForgottenHallTeamModule.with_support`: some member is a support-path character. -/
def TeamModule.with_support (m : TeamModule) : Bool :=
  m.character_id_list.any (fun character_id => (reg.char character_id).path = CharacterPath.support)

/-- Insertion into a Python set, modelled as a duplicate-free list in
insertion order. -/
def set_add {α : Type} [DecidableEq α] (s : List α) (a : α) : List α :=
  if a ∈ s then s else s ++ [a]

/-- Embeds `ForgottenHallNodeTeam`: modules assigned to one node, the set of character
ids occupying it, and the search phase marker `node_dfs_phase`. -/
structure NodeTeam where
  module_list : List TeamModule
  character_id_set : List String
  node_dfs_phase : Nat
  deriving DecidableEq

/-- A freshly constructed `ForgottenHallNodeTeam()`. -/
def emptyNodeTeam : NodeTeam :=
  { module_list := [], character_id_set := [], node_dfs_phase := 0 }

/-- Embeds `ForgottenHallNodeTeam.character_list`, looking ids up in the registry. -/
def NodeTeam.character_list (nt : NodeTeam) : List Character :=
  nt.character_id_set.map reg.char

/-- Embeds `ForgottenHallNodeTeam.existed_characters`: is any of the given ids already
in this node's character set? -/
def NodeTeam.existed_characters (nt : NodeTeam) (character_id_list : List String) : Bool :=
  character_id_list.any (fun character_id => character_id ∈ nt.character_id_set)

/-- Embeds `ForgottenHallNodeTeam.character_cnt`, the size of the character id set. -/
def NodeTeam.character_cnt (nt : NodeTeam) : Nat :=
  nt.character_id_set.length

/-- Embeds `ForgottenHallNodeTeam.add_module`: append the module and add its members
to the character id set. -/
def NodeTeam.add_module (nt : NodeTeam) (m : TeamModule) : NodeTeam :=
  { nt with
    module_list := nt.module_list ++ [m]
    character_id_set := m.character_id_list.foldl set_add nt.character_id_set }

/-- The removal loop of `ForgottenHallNodeTeam.pop_module`: `set.remove` each id
in turn; a missing id raises `KeyError`, i.e. stops with `false` (earlier
removals remain applied, as in the Python `except` path). -/
def remove_ids (nt : NodeTeam) : List String → Bool × NodeTeam
  | [] => (true, nt)
  | character_id :: rest =>
    if character_id ∈ nt.character_id_set then
      remove_ids { nt with character_id_set := nt.character_id_set.erase character_id } rest
    else
      (false, nt)

/-- Embeds `ForgottenHallNodeTeam.pop_module`: remove the first occurrence of the
module from `module_list` and its members from the character id set; `false`
when an element is absent. -/
def NodeTeam.pop_module (nt : NodeTeam) (m : TeamModule) : Bool × NodeTeam :=
  if m ∈ nt.module_list then
    remove_ids { nt with module_list := nt.module_list.erase m } m.character_id_list
  else
    (false, nt)

/-- Embeds `ForgottenHallNodeTeamScore`: the eight role/affinity counters and the six
score fields (Python floats, modelled as exact rationals). -/
structure NodeTeamScore where
  attack_cnt : Nat
  support_cnt : Nat
  survival_cnt : Nat
  combat_type_not_need_cnt : Nat
  combat_type_attack_cnt : Nat
  combat_type_attack_cnt_under_silver : Nat
  combat_type_other_cnt : Nat
  combat_type_other_cnt_under_silver : Nat
  cnt_score : ℚ
  attack_score : ℚ
  survival_score : ℚ
  support_score : ℚ
  combat_type_score : ℚ
  total_score : ℚ
  deriving DecidableEq

/-- All counters and scores zero, as on `ForgottenHallNodeTeamScore.__init__` entry. -/
def zeroNodeTeamScore : NodeTeamScore :=
  { attack_cnt := 0, support_cnt := 0, survival_cnt := 0
    combat_type_not_need_cnt := 0
    combat_type_attack_cnt := 0, combat_type_attack_cnt_under_silver := 0
    combat_type_other_cnt := 0, combat_type_other_cnt_under_silver := 0
    cnt_score := 0, attack_score := 0, survival_score := 0
    support_score := 0, combat_type_score := 0, total_score := 0 }

/-- Embeds `ForgottenHallNodeTeamScore._cal_need_combat_type`: when Silverwolf is in
the team, widen the required-affinity list by every member affinity not already
required (a set, modelled as a duplicate-free list) and record how many such
extra affinities there are; otherwise keep the original list.  Returns the
derived list together with `combat_type_not_need_cnt`. -/
def cal_need_combat_type (character_list : List Character)
    (need_combat_type_list : List Nat) : List Nat × Nat :=
  if character_list.any (fun c => c.id = reg.silver_id) then
    let team_combat_type_not_in_need : List Nat :=
      character_list.foldl
        (fun acc c =>
          if c.combat_type ∈ need_combat_type_list then acc else set_add acc c.combat_type)
        []
    (need_combat_type_list ++ team_combat_type_not_in_need, team_combat_type_not_in_need.length)
  else
    (need_combat_type_list, 0)

/-- One iteration of the loop in `ForgottenHallNodeTeamScore._cal_character_cnt`. -/
def cal_character_step (origin_combat_type_list cal_combat_type_list : List Nat)
    (s : NodeTeamScore) (c : Character) : NodeTeamScore :=
  match c.path with
  | CharacterPath.attack =>
    let s := { s with attack_cnt := s.attack_cnt + 1 }
    if c.combat_type ∈ origin_combat_type_list then
      { s with combat_type_attack_cnt := s.combat_type_attack_cnt + 1 }
    else if c.combat_type ∈ cal_combat_type_list then
      { s with combat_type_attack_cnt_under_silver := s.combat_type_attack_cnt_under_silver + 1 }
    else s
  | CharacterPath.survival =>
    let s := { s with survival_cnt := s.survival_cnt + 1 }
    if c.combat_type ∈ origin_combat_type_list then
      { s with combat_type_other_cnt := s.combat_type_other_cnt + 1 }
    else if c.combat_type ∈ cal_combat_type_list then
      { s with combat_type_other_cnt_under_silver := s.combat_type_other_cnt_under_silver + 1 }
    else s
  | CharacterPath.support =>
    let s := { s with support_cnt := s.support_cnt + 1 }
    if c.combat_type ∈ origin_combat_type_list then
      { s with combat_type_other_cnt := s.combat_type_other_cnt + 1 }
    else if c.combat_type ∈ cal_combat_type_list then
      { s with combat_type_other_cnt_under_silver := s.combat_type_other_cnt_under_silver + 1 }
    else s

/-- Embeds `ForgottenHallNodeTeamScore._cal_character_cnt`: tally the counters over
the character list. -/
def cal_character_cnt (s : NodeTeamScore) (character_list : List Character)
    (origin_combat_type_list cal_combat_type_list : List Nat) : NodeTeamScore :=
  character_list.foldl (cal_character_step origin_combat_type_list cal_combat_type_list) s

/-- Embeds `ForgottenHallNodeTeamScore._cal_total_score`: the tiered score computation
with the exact constants of the source. -/
def cal_total_score (s : NodeTeamScore) : NodeTeamScore :=
  let cnt_score : ℚ := ((s.attack_cnt + s.survival_cnt + s.support_cnt : Nat) : ℚ) * 100000000
  let attack_score_1 : ℚ := if s.attack_cnt > 0 then 1000000 else 0
  let attack_score_2 : ℚ :=
    if s.combat_type_attack_cnt > 0 then 10000000
    else if s.combat_type_attack_cnt_under_silver > 0 ∧ s.combat_type_not_need_cnt > 0 then
      (9 : ℚ) / 10 * 10000000 / (s.combat_type_not_need_cnt : ℚ)
    else 0
  let attack_score : ℚ := attack_score_1 + attack_score_2
  let survival_score : ℚ := if s.survival_cnt > 0 then 100000 else 0
  let support_score : ℚ := (s.support_cnt : ℚ) * 10000
  let combat_type_score : ℚ :=
    ((s.combat_type_attack_cnt + s.combat_type_other_cnt : Nat) : ℚ) * 1000 +
      (if s.combat_type_not_need_cnt > 0 then
        (9 : ℚ) / 10 *
            ((s.combat_type_attack_cnt_under_silver + s.combat_type_other_cnt_under_silver : Nat) : ℚ)
            * 1000 / (s.combat_type_not_need_cnt : ℚ)
      else 0)
  { s with
    cnt_score := cnt_score
    attack_score := attack_score
    survival_score := survival_score
    support_score := support_score
    combat_type_score := combat_type_score
    total_score := cnt_score + attack_score + survival_score + support_score + combat_type_score }

/-- Embeds `ForgottenHallNodeTeamScore.__init__`: derive the widened affinity list,
tally the counters, then compute the scores. -/
def mkNodeTeamScore (node_team : NodeTeam) (combat_type_list : List Nat) : NodeTeamScore :=
  let character_list := node_team.character_list reg
  let cal := cal_need_combat_type reg character_list combat_type_list
  let s := { zeroNodeTeamScore with combat_type_not_need_cnt := cal.2 }
  cal_total_score (cal_character_cnt s character_list combat_type_list cal.1)

/-- Embeds `ForgottenHallMissionTeam`: one `NodeTeam` per node, the per-node required
affinity lists, and the six mission-level score fields. -/
structure MissionTeam where
  total_node_cnt : Nat
  node_combat_types : List (List Nat)
  node_team_list : List NodeTeam
  cnt_score : ℚ
  attack_score : ℚ
  survival_score : ℚ
  support_score : ℚ
  combat_type_score : ℚ
  total_score : ℚ
  deriving DecidableEq

/-- Embeds `ForgottenHallMissionTeam.__init__`: one empty node team per required
affinity list, all scores zero. -/
def mkMissionTeam (node_combat_types : List (List Nat)) : MissionTeam :=
  { total_node_cnt := node_combat_types.length
    node_combat_types := node_combat_types
    node_team_list := List.replicate node_combat_types.length emptyNodeTeam
    cnt_score := 0, attack_score := 0, survival_score := 0
    support_score := 0, combat_type_score := 0, total_score := 0 }

/-- Embeds `ForgottenHallMissionTeam.existed_characters`: do any of the ids already
occupy some node? -/
def MissionTeam.existed_characters (mt : MissionTeam) (character_id_list : List String) : Bool :=
  mt.node_team_list.any (fun node_team => node_team.existed_characters character_id_list)

/-- Reads `self.node_team_list[node_num]` (always in range in the search; out-of-range
reads yield the empty node team). -/
def MissionTeam.nodeAt (mt : MissionTeam) (node_num : Nat) : NodeTeam :=
  mt.node_team_list.getD node_num emptyNodeTeam

/-- Embeds `ForgottenHallMissionTeam.add_to_node`: reject when the node would exceed 4
characters or when some module character already occupies a node; otherwise add
the module to the node.  The Python method mutates and returns a success flag;
here the (possibly unchanged) team is returned alongside the flag. -/
def MissionTeam.add_to_node (mt : MissionTeam) (node_num : Nat) (m : TeamModule) :
    Bool × MissionTeam :=
  if (mt.nodeAt node_num).character_id_set.length
      + m.character_id_list.length > 4 then
    (false, mt)
  else if mt.existed_characters m.character_id_list then
    (false, mt)
  else
    (true,
      { mt with
        node_team_list :=
          mt.node_team_list.set node_num
            ((mt.nodeAt node_num).add_module m) })

/-- Embeds `ForgottenHallMissionTeam.pop_from_node`. -/
def MissionTeam.pop_from_node (mt : MissionTeam) (node_num : Nat) (m : TeamModule) :
    Bool × MissionTeam :=
  if node_num ≥ mt.node_team_list.length then
    (false, mt)
  else
    let r := (mt.nodeAt node_num).pop_module m
    (r.1, { mt with node_team_list := mt.node_team_list.set node_num r.2 })

/-- Embeds `ForgottenHallMissionTeam.valid_mission_team`: every node has at least one
character. -/
def MissionTeam.valid_mission_team (mt : MissionTeam) : Bool :=
  mt.node_team_list.all (fun node_team => node_team.character_cnt ≠ 0)

/-- Embeds `ForgottenHallMissionTeam.character_cnt`: total characters over all nodes. -/
def MissionTeam.character_cnt (mt : MissionTeam) : Nat :=
  (mt.node_team_list.map NodeTeam.character_cnt).sum

/-- One iteration of the accumulation loop in
`ForgottenHallMissionTeam.update_score`: add node `i`'s scores. -/
def update_score_step (acc : MissionTeam) (i : Nat) : MissionTeam :=
  let node := mkNodeTeamScore reg (acc.node_team_list.getD i emptyNodeTeam)
    (acc.node_combat_types.getD i [])
  { acc with
    cnt_score := acc.cnt_score + node.cnt_score
    attack_score := acc.attack_score + node.attack_score
    survival_score := acc.survival_score + node.survival_score
    support_score := acc.support_score + node.support_score
    combat_type_score := acc.combat_type_score + node.combat_type_score
    total_score := acc.total_score + node.total_score }

/-- Embeds `ForgottenHallMissionTeam.update_score`: zero all score fields; when the
team is valid, add up the per-node scores over `range(len(node_combat_types))`. -/
def MissionTeam.update_score (mt : MissionTeam) : MissionTeam :=
  let mt0 := { mt with
    cnt_score := 0, attack_score := 0, survival_score := 0
    support_score := 0, combat_type_score := 0, total_score := 0 }
  if ¬ mt.valid_mission_team then mt0
  else
    (List.range mt.node_combat_types.length).foldl (update_score_step reg) mt0

/-- The `impossibly_greater` closure of `search_best_mission_team`: decide
whether the current team can no longer beat the best-so-far (`false` when the
team is not yet valid or no best exists). -/
def impossibly_greater (current : MissionTeam) (best_mission_team : Option MissionTeam) :
    Bool :=
  if ¬ current.valid_mission_team then false
  else match best_mission_team with
  | none => false
  | some best =>
    let current := current.update_score reg
    let all_node_after_attack_and_silver :=
      (List.range current.total_node_cnt).all
        (fun i => ¬ (current.nodeAt i).node_dfs_phase ≤ 1)
    let all_node_after_survival :=
      (List.range current.total_node_cnt).all
        (fun i => ¬ (current.nodeAt i).node_dfs_phase ≤ 2)
    if all_node_after_attack_and_silver ∧ current.attack_score < best.attack_score then
      true
    else if all_node_after_survival then
      if current.survival_score < best.survival_score then
        true
      else if current.support_score + (8 - (current.character_cnt : ℚ)) * 10000
          < best.support_score then
        true
      else if current.support_score + (8 - (current.character_cnt : ℚ)) * 10000
          = best.support_score then
        if current.combat_type_score + (8 - (current.character_cnt : ℚ)) * 1000
            < best.combat_type_score then
          true
        else false
      else false
    else false

/-- The `next_node_phase` computation in `dfs`: the module's category for phase
purposes, written as the source's cascade of reassignments. -/
def next_node_phase (m : TeamModule) : Nat :=
  let p := 0
  let p := if ¬ m.with_attack reg then 1 else p
  let p := if ¬ m.with_attack reg ∧ ¬ m.with_silver reg then 2 else p
  let p := if ¬ m.with_attack reg ∧ ¬ m.with_silver reg ∧ ¬ m.with_survival reg then 3 else p
  p

/-- The include branch of `dfs` for one node: when the node's phase admits the
module's category and `add_to_node` succeeds, the team entering the recursive
call, with the node's phase overwritten by the category; `none` otherwise. -/
def include_step (current : MissionTeam) (node_idx : Nat) (m : TeamModule) :
    Option MissionTeam :=
  if next_node_phase reg m ≥ (current.nodeAt node_idx).node_dfs_phase then
    let r := current.add_to_node node_idx m
    if r.1 then
      some { r.2 with
        node_team_list :=
          r.2.node_team_list.set node_idx
            { r.2.nodeAt node_idx with node_dfs_phase := next_node_phase reg m } }
    else none
  else none

/-- The terminal case of `dfs` (`current_module_idx == len(config_module_list)`):
keep the best team, replacing it only on a strict improvement of a valid team's
total score. -/
def update_best (current : MissionTeam) (best : Option MissionTeam) : Option MissionTeam :=
  if current.valid_mission_team then
    let scored := current.update_score reg
    match best with
    | none => some scored
    | some b => if scored.total_score > b.total_score then some scored else some b
  else best

/-- The recursive `dfs` of `search_best_mission_team`, with the in-place
mutation replaced by pure state passing (backtracking restores the team
exactly, so each sibling branch starts from the same `current`).  The
`best`-so-far is threaded instead of held in a nonlocal variable. -/
def dfs (current : MissionTeam) (remaining : List TeamModule) (best : Option MissionTeam) :
    Option MissionTeam :=
  match remaining with
  | [] => update_best reg current best
  | m :: rest =>
    if impossibly_greater reg current best then
      best
    else
      let best1 :=
        (List.range current.total_node_cnt).foldl
          (fun b node_idx =>
            match include_step reg current node_idx m with
            | some current2 => dfs current2 rest b
            | none => b)
          best
      dfs current rest best1

/-- Embeds `ForgottenHallApp.search_best_mission_team`: run the search from the empty
mission team and return the per-node character lists of the best team found. -/
def search_best_mission_team (node_combat_types : List (List Nat))
    (config_module_list : List TeamModule) : Option (List (List Character)) :=
  match dfs reg (mkMissionTeam node_combat_types) config_module_list none with
  | none => none
  | some best => some (best.node_team_list.map (fun nt => nt.character_list reg))

/-- The same search without the `impossibly_greater` pruning test: the
exhaustive baseline the spec's pruning-soundness property compares against. -/
def dfs_exhaustive (current : MissionTeam) (remaining : List TeamModule)
    (best : Option MissionTeam) : Option MissionTeam :=
  match remaining with
  | [] => update_best reg current best
  | m :: rest =>
    let best1 :=
      (List.range current.total_node_cnt).foldl
        (fun b node_idx =>
          match include_step reg current node_idx m with
          | some current2 => dfs_exhaustive current2 rest b
          | none => b)
        best
    dfs_exhaustive current rest best1

/-- The structural invariant maintained by the search: every node's character
set is duplicate-free with at most 4 members, and no character id occupies two
different nodes. -/
def goodTeam (mt : MissionTeam) : Prop :=
  (∀ nt ∈ mt.node_team_list, nt.character_id_set.Nodup ∧ nt.character_id_set.length ≤ 4) ∧
  (∀ i j, i < mt.node_team_list.length → j < mt.node_team_list.length → i ≠ j →
    ∀ cid ∈ (mt.nodeAt i).character_id_set, cid ∉ (mt.nodeAt j).character_id_set)

/-- The invariant carried by the best-so-far option: any stored team is
structurally sound and valid. -/
def bestInv (best : Option MissionTeam) : Prop :=
  ∀ b, best = some b → goodTeam b ∧ b.valid_mission_team = true

/-! ### Concrete instances used by counterexamples and witnesses -/

/-- A small concrete registry: `"A"` is a Fire (code 0) attacker, `"V"` a
survivor, every other id a support character; all non-`"A"` characters have
affinity code 1.  Silverwolf's id does not occur in any module below. -/
def sampleReg : CharacterRegistry :=
  { char := fun character_id =>
      if character_id = "A" then ⟨"A", 0, CharacterPath.attack⟩
      else if character_id = "V" then ⟨"V", 1, CharacterPath.survival⟩
      else ⟨character_id, 1, CharacterPath.support⟩
    silver_id := "silverwolf" }

/-- Module of one matching attacker and one support character. -/
def sampleModule1 : TeamModule := ⟨"m1", "", "", ["A", "x"]⟩

/-- Module of one survivor and two support characters. -/
def sampleModule2 : TeamModule := ⟨"m2", "", "", ["V", "p", "q"]⟩

/-- Module of three support characters. -/
def sampleModule3 : TeamModule := ⟨"m3", "", "", ["r", "s", "t"]⟩

/-- Module of one support character. -/
def sampleModule4 : TeamModule := ⟨"m4", "", "", ["z"]⟩

/-- Two nodes, both requiring affinity code 0 (only `"A"` matches). -/
def sampleCombatTypes : List (List Nat) := [[0], [0]]

/-- A registry mapping every id to an attacker with that id. -/
def idReg : CharacterRegistry :=
  { char := fun character_id => ⟨character_id, 0, CharacterPath.attack⟩
    silver_id := "silverwolf" }

/-- A module whose four members would overfill a node that is not empty. -/
def fourModule : TeamModule := ⟨"m4c", "", "", ["c1", "c2", "c3", "c4"]⟩

/-- A module of five members, rejected by capacity even on an empty node. -/
def fiveModule : TeamModule := ⟨"m5c", "", "", ["c1", "c2", "c3", "c4", "c5"]⟩

/-- A node team holding Silverwolf and the attacker `"A"`, used to witness
the widening. -/
def silverNodeTeam : NodeTeam :=
  { module_list := [], character_id_set := ["silverwolf", "A"], node_dfs_phase := 0 }


/-! ### Helper lemmas -/

/-- The `update_score` loop body touches only the six score fields. -/
theorem update_score_step_frame (acc : MissionTeam) (i : Nat) :
    (update_score_step reg acc i).node_team_list = acc.node_team_list ∧
    (update_score_step reg acc i).total_node_cnt = acc.total_node_cnt ∧
    (update_score_step reg acc i).node_combat_types = acc.node_combat_types :=
  ⟨rfl, rfl, rfl⟩

/-- The function `update_score` touches only the six score fields: the node teams, node
count and required-affinity lists are unchanged. -/
theorem update_score_preserves_structure (mt : MissionTeam) :
    (mt.update_score reg).node_team_list = mt.node_team_list ∧
    (mt.update_score reg).total_node_cnt = mt.total_node_cnt ∧
    (mt.update_score reg).node_combat_types = mt.node_combat_types := by
  unfold MissionTeam.update_score
  split
  · exact ⟨rfl, rfl, rfl⟩
  · have key : ∀ (l : List Nat) (acc : MissionTeam),
        (l.foldl (update_score_step reg) acc).node_team_list = acc.node_team_list ∧
        (l.foldl (update_score_step reg) acc).total_node_cnt = acc.total_node_cnt ∧
        (l.foldl (update_score_step reg) acc).node_combat_types = acc.node_combat_types := by
      intro l
      induction l with
      | nil => intro acc; exact ⟨rfl, rfl, rfl⟩
      | cons x xs ih =>
        intro acc
        refine ⟨?_, ?_, ?_⟩
        · exact ((ih _).1).trans rfl
        · exact ((ih _).2.1).trans rfl
        · exact ((ih _).2.2).trans rfl
    exact ⟨(key _ _).1, (key _ _).2.1, (key _ _).2.2⟩

/-- The function `update_score` does not change `nodeAt`. -/
theorem update_score_nodeAt (mt : MissionTeam) (i : Nat) :
    (mt.update_score reg).nodeAt i = mt.nodeAt i := by
  unfold MissionTeam.nodeAt
  rw [(update_score_preserves_structure reg mt).1]

/-- The function `update_score` does not change the total character count. -/
theorem update_score_character_cnt (mt : MissionTeam) :
    (mt.update_score reg).character_cnt = mt.character_cnt := by
  unfold MissionTeam.character_cnt
  rw [(update_score_preserves_structure reg mt).1]

/-- Reading an updated position of a list. -/
theorem getD_set_self {α : Type} (l : List α) (k : Nat) (x d : α) (h : k < l.length) :
    (l.set k x).getD k d = x := by
  simp [List.getD, List.getElem?_set, h]

/-- Reading an untouched position of an updated list. -/
theorem getD_set_ne {α : Type} (l : List α) (k j : Nat) (x d : α) (h : j ≠ k) :
    (l.set k x).getD j d = l.getD j d := by
  simp [List.getD, List.getElem?_set, Ne.symm h]

/-- What a successful `add_to_node` did: the node received the module, and both
guards (capacity and global uniqueness) were satisfied. -/
theorem add_to_node_true (mt : MissionTeam) (k : Nat) (m : TeamModule)
    (h : (mt.add_to_node k m).1 = true) :
    (mt.add_to_node k m).2.node_team_list
        = mt.node_team_list.set k ((mt.nodeAt k).add_module m) ∧
    (mt.nodeAt k).character_id_set.length + m.character_id_list.length ≤ 4 ∧
    mt.existed_characters m.character_id_list = false := by
  unfold MissionTeam.add_to_node at h ⊢
  split at h
  · simp at h
  · split at h
    · simp at h
    · rename_i h1 h2
      refine ⟨by simp [h1, h2], by omega, by simpa using h2⟩

/-- The method `add_to_node` never changes the node count or required-affinity lists. -/
theorem add_to_node_preserves_frame (mt : MissionTeam) (k : Nat) (m : TeamModule) :
    (mt.add_to_node k m).2.total_node_cnt = mt.total_node_cnt ∧
    (mt.add_to_node k m).2.node_combat_types = mt.node_combat_types ∧
    (mt.add_to_node k m).2.node_team_list.length = mt.node_team_list.length := by
  unfold MissionTeam.add_to_node
  split
  · exact ⟨rfl, rfl, rfl⟩
  · split
    · exact ⟨rfl, rfl, rfl⟩
    · exact ⟨rfl, rfl, by simp⟩

/-- What a successful `include_step` is: the phase guard held, `add_to_node`
succeeded, and the result is the post-add team with the node's phase
overwritten by the module's category. -/
theorem include_step_some (current : MissionTeam) (k : Nat) (m : TeamModule)
    (current2 : MissionTeam) (h : include_step reg current k m = some current2) :
    next_node_phase reg m ≥ (current.nodeAt k).node_dfs_phase ∧
    (current.add_to_node k m).1 = true ∧
    current2 = { (current.add_to_node k m).2 with
      node_team_list := (current.add_to_node k m).2.node_team_list.set k
        { (current.add_to_node k m).2.nodeAt k with
          node_dfs_phase := next_node_phase reg m } } := by
  simp only [include_step] at h
  split at h
  · rename_i hguard
    split at h
    · rename_i hok
      refine ⟨hguard, hok, ?_⟩
      injection h with h'
      exact h'.symm
    · simp at h
  · simp at h

/-- Membership in a Python-set insertion. -/
theorem mem_set_add {α : Type} [DecidableEq α] (s : List α) (x a : α) :
    a ∈ set_add s x ↔ a ∈ s ∨ a = x := by
  unfold set_add
  split
  · rename_i hx
    constructor
    · exact Or.inl
    · rintro (h | rfl)
      · exact h
      · exact hx
  · simp

/-- Python-set insertion preserves freedom from duplicates. -/
theorem nodup_set_add {α : Type} [DecidableEq α] (s : List α) (x : α) (h : s.Nodup) :
    (set_add s x).Nodup := by
  unfold set_add
  split
  · exact h
  · rename_i hx
    simpa [List.nodup_append] using ⟨h, fun ha => hx ha⟩

/-- The counters produced by the `_cal_character_cnt` loop are the evident
counts over the character list (the `combat_type_not_need_cnt` field is left
untouched). -/
theorem cal_character_cnt_spec (o cal : List Nat) :
    ∀ (chars : List Character) (s : NodeTeamScore),
      (cal_character_cnt s chars o cal).attack_cnt
          = s.attack_cnt + chars.countP (fun c => decide (c.path = CharacterPath.attack)) ∧
      (cal_character_cnt s chars o cal).survival_cnt
          = s.survival_cnt + chars.countP (fun c => decide (c.path = CharacterPath.survival)) ∧
      (cal_character_cnt s chars o cal).support_cnt
          = s.support_cnt + chars.countP (fun c => decide (c.path = CharacterPath.support)) ∧
      (cal_character_cnt s chars o cal).combat_type_attack_cnt
          = s.combat_type_attack_cnt + chars.countP
              (fun c => decide (c.path = CharacterPath.attack ∧ c.combat_type ∈ o)) ∧
      (cal_character_cnt s chars o cal).combat_type_attack_cnt_under_silver
          = s.combat_type_attack_cnt_under_silver + chars.countP
              (fun c => decide (c.path = CharacterPath.attack ∧ c.combat_type ∉ o
                ∧ c.combat_type ∈ cal)) ∧
      (cal_character_cnt s chars o cal).combat_type_other_cnt
          = s.combat_type_other_cnt + chars.countP
              (fun c => decide (¬ c.path = CharacterPath.attack ∧ c.combat_type ∈ o)) ∧
      (cal_character_cnt s chars o cal).combat_type_other_cnt_under_silver
          = s.combat_type_other_cnt_under_silver + chars.countP
              (fun c => decide (¬ c.path = CharacterPath.attack ∧ c.combat_type ∉ o
                ∧ c.combat_type ∈ cal)) ∧
      (cal_character_cnt s chars o cal).combat_type_not_need_cnt
          = s.combat_type_not_need_cnt := by
  intro chars
  induction chars with
  | nil =>
    intro s
    simp [cal_character_cnt]
  | cons hd tl ih =>
    intro s
    have hstep : cal_character_cnt s (hd :: tl) o cal
        = cal_character_cnt (cal_character_step o cal s hd) tl o cal := rfl
    obtain ⟨i1, i2, i3, i4, i5, i6, i7, i8⟩ := ih (cal_character_step o cal s hd)
    rw [hstep]
    refine ⟨?_, ?_, ?_, ?_, ?_, ?_, ?_, ?_⟩ <;>
      simp only [i1, i2, i3, i4, i5, i6, i7, i8] <;>
      rcases hp : hd.path <;>
        by_cases ho : hd.combat_type ∈ o <;>
        by_cases hc : hd.combat_type ∈ cal <;>
        simp [cal_character_step, hp, ho, hc, List.countP_cons] <;>
        omega

/-- Membership in the extra-affinity set built by `_cal_need_combat_type`. -/
theorem cal_extras_mem (need : List Nat) :
    ∀ (chars : List Character) (acc : List Nat) (a : Nat),
      (a ∈ chars.foldl
          (fun acc c =>
            if c.combat_type ∈ need then acc else set_add acc c.combat_type) acc) ↔
        (a ∈ acc ∨ (a ∉ need ∧ ∃ c ∈ chars, c.combat_type = a)) := by
  intro chars
  induction chars with
  | nil => intro acc a; simp
  | cons hd tl ih =>
    intro acc a
    by_cases hn : hd.combat_type ∈ need
    · rw [show ((hd :: tl).foldl
          (fun acc c =>
            if c.combat_type ∈ need then acc else set_add acc c.combat_type) acc)
          = tl.foldl
            (fun acc c =>
              if c.combat_type ∈ need then acc else set_add acc c.combat_type) acc by
          simp [hn]]
      rw [ih]
      constructor
      · rintro (h | h)
        · exact Or.inl h
        · exact Or.inr ⟨h.1, h.2.imp (fun c hc => ⟨List.mem_cons_of_mem _ hc.1, hc.2⟩)⟩
      · rintro (h | ⟨hna, c, hcmem, hceq⟩)
        · exact Or.inl h
        · rcases List.mem_cons.mp hcmem with rfl | hctl
          · exact absurd (hceq ▸ hn) hna
          · exact Or.inr ⟨hna, c, hctl, hceq⟩
    · rw [show ((hd :: tl).foldl
          (fun acc c =>
            if c.combat_type ∈ need then acc else set_add acc c.combat_type) acc)
          = tl.foldl
            (fun acc c =>
              if c.combat_type ∈ need then acc else set_add acc c.combat_type)
            (set_add acc hd.combat_type) by
          simp [hn]]
      rw [ih, mem_set_add]
      constructor
      · rintro ((h | rfl) | h)
        · exact Or.inl h
        · exact Or.inr ⟨hn, hd, List.mem_cons_self _ _, rfl⟩
        · exact Or.inr ⟨h.1, h.2.imp (fun c hc => ⟨List.mem_cons_of_mem _ hc.1, hc.2⟩)⟩
      · rintro (h | ⟨hna, c, hcmem, hceq⟩)
        · exact Or.inl (Or.inl h)
        · rcases List.mem_cons.mp hcmem with rfl | hctl
          · exact Or.inl (Or.inr hceq.symm)
          · exact Or.inr ⟨hna, c, hctl, hceq⟩

/-- The extra-affinity set built by `_cal_need_combat_type` has no duplicates. -/
theorem cal_extras_nodup (need : List Nat) :
    ∀ (chars : List Character) (acc : List Nat), acc.Nodup →
      (chars.foldl
          (fun acc c =>
            if c.combat_type ∈ need then acc else set_add acc c.combat_type) acc).Nodup := by
  intro chars
  induction chars with
  | nil => intro acc h; simpa using h
  | cons hd tl ih =>
    intro acc h
    by_cases hn : hd.combat_type ∈ need
    · rw [show ((hd :: tl).foldl
          (fun acc c =>
            if c.combat_type ∈ need then acc else set_add acc c.combat_type) acc)
          = tl.foldl
            (fun acc c =>
              if c.combat_type ∈ need then acc else set_add acc c.combat_type) acc by
          simp [hn]]
      exact ih acc h
    · rw [show ((hd :: tl).foldl
          (fun acc c =>
            if c.combat_type ∈ need then acc else set_add acc c.combat_type) acc)
          = tl.foldl
            (fun acc c =>
              if c.combat_type ∈ need then acc else set_add acc c.combat_type)
            (set_add acc hd.combat_type) by
          simp [hn]]
      exact ih _ (nodup_set_add acc hd.combat_type h)

/-- The accumulation loop of `update_score` adds up the per-node scores. -/
theorem update_score_fold_sum (mt : MissionTeam) :
    ∀ (l : List Nat) (acc : MissionTeam),
      acc.node_team_list = mt.node_team_list →
      acc.node_combat_types = mt.node_combat_types →
      ((l.foldl (update_score_step reg) acc).cnt_score
          = acc.cnt_score + (l.map (fun i =>
              (mkNodeTeamScore reg (mt.nodeAt i) (mt.node_combat_types.getD i [])).cnt_score)).sum) ∧
      ((l.foldl (update_score_step reg) acc).attack_score
          = acc.attack_score + (l.map (fun i =>
              (mkNodeTeamScore reg (mt.nodeAt i) (mt.node_combat_types.getD i [])).attack_score)).sum) ∧
      ((l.foldl (update_score_step reg) acc).survival_score
          = acc.survival_score + (l.map (fun i =>
              (mkNodeTeamScore reg (mt.nodeAt i) (mt.node_combat_types.getD i [])).survival_score)).sum) ∧
      ((l.foldl (update_score_step reg) acc).support_score
          = acc.support_score + (l.map (fun i =>
              (mkNodeTeamScore reg (mt.nodeAt i) (mt.node_combat_types.getD i [])).support_score)).sum) ∧
      ((l.foldl (update_score_step reg) acc).combat_type_score
          = acc.combat_type_score + (l.map (fun i =>
              (mkNodeTeamScore reg (mt.nodeAt i) (mt.node_combat_types.getD i [])).combat_type_score)).sum) ∧
      ((l.foldl (update_score_step reg) acc).total_score
          = acc.total_score + (l.map (fun i =>
              (mkNodeTeamScore reg (mt.nodeAt i) (mt.node_combat_types.getD i [])).total_score)).sum) := by
  intro l
  induction l with
  | nil =>
    intro acc h1 h2
    simp
  | cons x xs ih =>
    intro acc h1 h2
    obtain ⟨j1, j2, j3, j4, j5, j6⟩ := ih (update_score_step reg acc x)
      (((update_score_step_frame reg acc x).1).trans h1)
      (((update_score_step_frame reg acc x).2.2).trans h2)
    refine ⟨?_, ?_, ?_, ?_, ?_, ?_⟩ <;>
      simp only [List.foldl_cons, j1, j2, j3, j4, j5, j6, List.map_cons, List.sum_cons] <;>
      simp [update_score_step, MissionTeam.nodeAt, h1, h2, add_assoc]

/-- Membership after folding Python-set insertions. -/
theorem mem_foldl_set_add {α : Type} [DecidableEq α] :
    ∀ (l s : List α) (a : α), a ∈ l.foldl set_add s ↔ a ∈ s ∨ a ∈ l := by
  intro l
  induction l with
  | nil => intro s a; simp
  | cons x xs ih =>
    intro s a
    rw [List.foldl_cons, ih, mem_set_add]
    constructor
    · rintro ((h | rfl) | h)
      · exact Or.inl h
      · exact Or.inr (List.mem_cons_self _ _)
      · exact Or.inr (List.mem_cons_of_mem _ h)
    · rintro (h | h)
      · exact Or.inl (Or.inl h)
      · rcases List.mem_cons.mp h with rfl | h
        · exact Or.inl (Or.inr rfl)
        · exact Or.inr h

/-- Folding Python-set insertions preserves freedom from duplicates. -/
theorem nodup_foldl_set_add {α : Type} [DecidableEq α] :
    ∀ (l s : List α), s.Nodup → (l.foldl set_add s).Nodup := by
  intro l
  induction l with
  | nil => intro s h; simpa using h
  | cons x xs ih =>
    intro s h
    rw [List.foldl_cons]
    exact ih _ (nodup_set_add s x h)

/-- Folding Python-set insertions adds at most one element each. -/
theorem length_foldl_set_add_le {α : Type} [DecidableEq α] :
    ∀ (l s : List α), (l.foldl set_add s).length ≤ s.length + l.length := by
  intro l
  induction l with
  | nil => intro s; simp
  | cons x xs ih =>
    intro s
    rw [List.foldl_cons]
    refine (ih (set_add s x)).trans ?_
    unfold set_add
    split
    all_goals simp
    all_goals omega

/-- A failed global-uniqueness check means every listed id is absent from
every node. -/
theorem existed_characters_false (mt : MissionTeam) (ids : List String)
    (h : mt.existed_characters ids = false) :
    ∀ cid ∈ ids, ∀ nt ∈ mt.node_team_list, cid ∉ nt.character_id_set := by
  intro cid hcid nt hnt hmem
  unfold MissionTeam.existed_characters at h
  rw [List.any_eq_false] at h
  have hnot := h nt hnt
  unfold NodeTeam.existed_characters at hnot
  exact hnot (List.any_eq_true.mpr ⟨cid, hcid, by simpa using hmem⟩)

/-- The node read by `nodeAt` belongs to the node list (in range). -/
theorem nodeAt_mem (mt : MissionTeam) (k : Nat) (h : k < mt.node_team_list.length) :
    mt.nodeAt k ∈ mt.node_team_list := by
  unfold MissionTeam.nodeAt
  simp [List.getD, List.getElem?_eq_getElem h]

/-- A successful `add_to_node` preserves the structural invariant. -/
theorem add_to_node_good (mt : MissionTeam) (k : Nat) (m : TeamModule)
    (hok : (mt.add_to_node k m).1 = true) (hg : goodTeam mt) :
    goodTeam (mt.add_to_node k m).2 := by
  obtain ⟨hlist, hcap, hfresh⟩ := add_to_node_true mt k m hok
  have hfresh' := existed_characters_false mt m.character_id_list hfresh
  by_cases hk : k < mt.node_team_list.length
  · have hkgood := hg.1 (mt.nodeAt k) (nodeAt_mem mt k hk)
    constructor
    · intro nt hnt
      rw [hlist] at hnt
      rcases List.mem_or_eq_of_mem_set hnt with hmem | rfl
      · exact hg.1 nt hmem
      · constructor
        · exact nodup_foldl_set_add _ _ hkgood.1
        · calc (m.character_id_list.foldl set_add (mt.nodeAt k).character_id_set).length
              ≤ (mt.nodeAt k).character_id_set.length + m.character_id_list.length :=
                length_foldl_set_add_le _ _
            _ ≤ 4 := hcap
    · intro i j hi hj hij cid hcidi
      rw [hlist, List.length_set] at hi hj
      have hnew : ∀ x, ((mt.add_to_node k m).2.nodeAt x).character_id_set
          = if x = k then m.character_id_list.foldl set_add (mt.nodeAt k).character_id_set
            else (mt.nodeAt x).character_id_set := by
        intro x
        unfold MissionTeam.nodeAt
        rw [hlist]
        by_cases hx : x = k
        · subst hx
          rw [getD_set_self _ _ _ _ hk, if_pos rfl]
          rfl
        · rw [getD_set_ne _ _ _ _ _ hx, if_neg hx]
      rw [hnew i] at hcidi
      rw [hnew j]
      by_cases hik : i = k
      · subst hik
        rw [if_pos rfl] at hcidi
        rw [if_neg (fun hjk => hij hjk.symm)]
        rcases (mem_foldl_set_add _ _ _).mp hcidi with hold | hmod
        · exact hg.2 i j hi hj hij cid hold
        · exact hfresh' cid hmod (mt.nodeAt j) (nodeAt_mem mt j hj)
      · rw [if_neg hik] at hcidi
        by_cases hjk : j = k
        · subst hjk
          rw [if_pos rfl]
          intro hcontra
          rcases (mem_foldl_set_add _ _ _).mp hcontra with hold | hmod
          · exact hg.2 i j hi hj hij cid hcidi hold
          · exact hfresh' cid hmod (mt.nodeAt i) (nodeAt_mem mt i hi) hcidi
        · rw [if_neg hjk]
          exact hg.2 i j hi hj hij cid hcidi
  · have hset : mt.node_team_list.set k ((mt.nodeAt k).add_module m) = mt.node_team_list :=
      List.set_eq_of_length_le (by omega)
    constructor
    · intro nt hnt
      rw [hlist, hset] at hnt
      exact hg.1 nt hnt
    · intro i j hi hj hij cid hcidi
      rw [hlist, hset] at hi hj
      have hA : ∀ x, ((mt.add_to_node k m).2.nodeAt x) = mt.nodeAt x := by
        intro x
        unfold MissionTeam.nodeAt
        rw [hlist, hset]
      rw [hA i] at hcidi
      rw [hA j]
      exact hg.2 i j hi hj hij cid hcidi

/-- Two mission teams with the same node lists share the invariant. -/
theorem goodTeam_of_list_eq (a b : MissionTeam)
    (h : a.node_team_list = b.node_team_list) (hg : goodTeam b) : goodTeam a := by
  constructor
  · intro nt hnt
    exact hg.1 nt (h ▸ hnt)
  · intro i j hi hj hij
    have ha : ∀ x, a.nodeAt x = b.nodeAt x := by
      intro x
      unfold MissionTeam.nodeAt
      rw [h]
    rw [ha i, ha j]
    exact hg.2 i j (h ▸ hi) (h ▸ hj) hij

/-- Two mission teams with the same node lists agree on validity. -/
theorem valid_of_list_eq (a b : MissionTeam)
    (h : a.node_team_list = b.node_team_list) :
    a.valid_mission_team = b.valid_mission_team := by
  unfold MissionTeam.valid_mission_team
  rw [h]

/-- Reading `nodeAt` out of range yields the empty node team. -/
theorem nodeAt_out_of_range (mt : MissionTeam) (k : Nat)
    (h : mt.node_team_list.length ≤ k) : mt.nodeAt k = emptyNodeTeam := by
  unfold MissionTeam.nodeAt
  simp [List.getD, List.getElem?_eq_none h]

/-- A successful `include_step` preserves the structural invariant (the phase
stamp does not touch any character set). -/
theorem include_step_good (current : MissionTeam) (k : Nat) (m : TeamModule)
    (current2 : MissionTeam) (h : include_step reg current k m = some current2)
    (hg : goodTeam current) : goodTeam current2 := by
  obtain ⟨-, hok, heq⟩ := include_step_some reg current k m current2 h
  have hgadd := add_to_node_good current k m hok hg
  subst heq
  constructor
  · intro nt hnt
    rcases List.mem_or_eq_of_mem_set hnt with hmem | rfl
    · exact hgadd.1 nt hmem
    · by_cases hk : k < (current.add_to_node k m).2.node_team_list.length
      · exact hgadd.1 ((current.add_to_node k m).2.nodeAt k) (nodeAt_mem _ k hk)
      · have he : (current.add_to_node k m).2.nodeAt k = emptyNodeTeam :=
          nodeAt_out_of_range _ k (by omega)
        refine ⟨?_, ?_⟩
        · show ((current.add_to_node k m).2.nodeAt k).character_id_set.Nodup
          rw [he]
          exact List.nodup_nil
        · show ((current.add_to_node k m).2.nodeAt k).character_id_set.length ≤ 4
          rw [he]
          simp [emptyNodeTeam]
  · intro i j hi hj hij cid hcidi
    have hlen : ∀ x : Nat, x < ((current.add_to_node k m).2.node_team_list.set k
          { (current.add_to_node k m).2.nodeAt k with
            node_dfs_phase := next_node_phase reg m }).length →
        x < (current.add_to_node k m).2.node_team_list.length := by
      intro x hx
      rwa [List.length_set] at hx
    have hσ : ∀ x : Nat,
        (MissionTeam.nodeAt
          { (current.add_to_node k m).2 with
            node_team_list := (current.add_to_node k m).2.node_team_list.set k
              { (current.add_to_node k m).2.nodeAt k with
                node_dfs_phase := next_node_phase reg m } } x).character_id_set
          = ((current.add_to_node k m).2.nodeAt x).character_id_set := by
      intro x
      unfold MissionTeam.nodeAt
      by_cases hx : x = k
      · subst hx
        by_cases hk : x < (current.add_to_node x m).2.node_team_list.length
        · rw [getD_set_self _ _ _ _ hk]
        · rw [List.set_eq_of_length_le (by omega)]
      · rw [getD_set_ne _ _ _ _ _ hx]
    rw [hσ i] at hcidi
    rw [hσ j]
    exact hgadd.2 i j (hlen i hi) (hlen j hj) hij cid hcidi

/-- The terminal step `update_best` preserves the best-so-far invariant. -/
theorem update_best_inv (current : MissionTeam) (best : Option MissionTeam)
    (hg : goodTeam current) (hb : bestInv best) :
    bestInv (update_best reg current best) := by
  unfold update_best
  split
  · rename_i hv
    have hlist := (update_score_preserves_structure reg current).1
    have hgood : goodTeam (current.update_score reg) := goodTeam_of_list_eq _ _ hlist hg
    have hvalid : (current.update_score reg).valid_mission_team = true := by
      rw [valid_of_list_eq _ _ hlist]
      exact hv
    cases best with
    | none =>
      intro b hb'
      injection hb' with hb'
      exact hb' ▸ ⟨hgood, hvalid⟩
    | some b0 =>
      intro b hb'
      by_cases hgt : (current.update_score reg).total_score > b0.total_score
      · simp only [hgt, if_true] at hb'
        injection hb' with hb'
        exact hb' ▸ ⟨hgood, hvalid⟩
      · simp only [hgt, if_false] at hb'
        injection hb' with hb'
        exact hb' ▸ hb b0 rfl
  · exact hb

/-- The recursive search preserves the best-so-far invariant. -/
theorem dfs_inv :
    ∀ (remaining : List TeamModule) (current : MissionTeam) (best : Option MissionTeam),
      goodTeam current → bestInv best → bestInv (dfs reg current remaining best) := by
  intro remaining
  induction remaining with
  | nil =>
    intro current best hg hb
    exact update_best_inv reg current best hg hb
  | cons m rest ih =>
    intro current best hg hb
    show bestInv (dfs reg current (m :: rest) best)
    rw [show dfs reg current (m :: rest) best
        = if impossibly_greater reg current best then best
          else dfs reg current rest
            ((List.range current.total_node_cnt).foldl
              (fun b node_idx =>
                match include_step reg current node_idx m with
                | some current2 => dfs reg current2 rest b
                | none => b)
              best) from rfl]
    split
    · exact hb
    · refine ih current _ hg ?_
      have haux : ∀ (ks : List Nat) (b : Option MissionTeam), bestInv b →
          bestInv (ks.foldl
            (fun b node_idx =>
              match include_step reg current node_idx m with
              | some current2 => dfs reg current2 rest b
              | none => b)
            b) := by
        intro ks
        induction ks with
        | nil => intro b hb'; exact hb'
        | cons k ks ihk =>
          intro b hb'
          rw [List.foldl_cons]
          refine ihk _ ?_
          cases hstep : include_step reg current k m with
          | none => simpa [hstep] using hb'
          | some current2 =>
            have hg2 := include_step_good reg current k m current2 hstep hg
            simpa [hstep] using ih current2 b hg2 hb'
      exact haux _ best hb

/-! ### Claim theorems -/

/-- Claim C10: whenever `add_to_node` returns `false` (capacity exceeded or
some module character already occupies a node), the mission team is left
completely unchanged. -/
theorem add_to_node_failure_leaves_team_unchanged (mt : MissionTeam) (node_num : Nat)
    (m : TeamModule) (h : (mt.add_to_node node_num m).1 = false) :
    (mt.add_to_node node_num m).2 = mt := by
  unfold MissionTeam.add_to_node at h ⊢
  split at h
  · simp_all
  · split at h
    · simp_all
    · simp at h

/-- Witness for C10: a five-character module is rejected on an empty node and
the team is returned unchanged. -/
theorem add_to_node_failure_leaves_team_unchanged_witness :
    ((mkMissionTeam sampleCombatTypes).add_to_node 0 fiveModule).2
      = mkMissionTeam sampleCombatTypes :=
  add_to_node_failure_leaves_team_unchanged (mkMissionTeam sampleCombatTypes) 0 fiveModule
    (by decide)

/-- Claim C6: for a module whose characters do not already occupy any node,
adding it to a node holding `c` characters, when the module has `k` members, is
rejected whenever `c + k > 4` (in particular at `c + k = 5`, and a 4-member
module is rejected whenever the node holds at least one character) and is
accepted at `c + k = 4`. -/
theorem add_to_node_capacity_boundary (mt : MissionTeam) (node_num : Nat) (m : TeamModule)
    (hfresh : mt.existed_characters m.character_id_list = false) :
    ((mt.nodeAt node_num).character_id_set.length
        + m.character_id_list.length > 4 →
      (mt.add_to_node node_num m).1 = false) ∧
    ((mt.nodeAt node_num).character_id_set.length
        + m.character_id_list.length = 4 →
      (mt.add_to_node node_num m).1 = true) ∧
    (m.character_id_list.length = 4 →
      1 ≤ (mt.nodeAt node_num).character_id_set.length →
      (mt.add_to_node node_num m).1 = false) := by
  refine ⟨fun hgt => ?_, fun heq => ?_, fun hk hc => ?_⟩
  · unfold MissionTeam.add_to_node
    split
    · rfl
    · exfalso
      simp only [List.getD] at hgt
      omega
  · unfold MissionTeam.add_to_node
    split
    · exfalso
      simp only [List.getD] at heq
      omega
    · split
      · simp_all
      · rfl
  · unfold MissionTeam.add_to_node
    split
    · rfl
    · exfalso
      simp only [List.getD] at hk hc
      omega

/-- Witness for C6: on a node already holding `"A"` and `"x"` (so `c = 2`), a
two-member fresh module lands exactly on the boundary `c + k = 4` and is
accepted. -/
theorem add_to_node_capacity_boundary_witness :
    ((((mkMissionTeam sampleCombatTypes).add_to_node 0 sampleModule1).2).add_to_node 0
      ⟨"m", "", "", ["y", "w"]⟩).1 = true :=
  (add_to_node_capacity_boundary (((mkMissionTeam sampleCombatTypes).add_to_node 0
      sampleModule1).2) 0 ⟨"m", "", "", ["y", "w"]⟩ (by decide)).2.1 (by decide)

/-- Claim C8: the search is a total function — it always returns either a best
assignment or the explicit "none" result — and with three nodes and zero
available modules it returns "none". -/
theorem search_total_and_none_on_empty_modules (reg : CharacterRegistry) :
    (∀ (node_combat_types : List (List Nat)) (config_module_list : List TeamModule),
      (∃ r, search_best_mission_team reg node_combat_types config_module_list = some r) ∨
        search_best_mission_team reg node_combat_types config_module_list = none) ∧
    (∀ t1 t2 t3 : List Nat, search_best_mission_team reg [t1, t2, t3] [] = none) := by
  constructor
  · intro node_combat_types config_module_list
    cases h : search_best_mission_team reg node_combat_types config_module_list with
    | none => exact Or.inr rfl
    | some r => exact Or.inl ⟨r, rfl⟩
  · intro t1 t2 t3
    rfl

/-- Claim C9: the search is a deterministic function of its inputs, and on an
exact total-score tie the best-so-far is kept (strict `>` update), so the
first-encountered optimum wins. -/
theorem search_deterministic_and_tie_keeps_first (reg : CharacterRegistry) :
    (∀ (node_combat_types : List (List Nat)) (config_module_list : List TeamModule),
      search_best_mission_team reg node_combat_types config_module_list =
        search_best_mission_team reg node_combat_types config_module_list) ∧
    (∀ current b : MissionTeam,
      (current.update_score reg).total_score = b.total_score →
      update_best reg current (some b) = some b) := by
  refine ⟨fun _ _ => rfl, fun current b h => ?_⟩
  unfold update_best
  by_cases hv : current.valid_mission_team = true
  · simp [hv, h, lt_irrefl]
  · simp [hv]

/-- Witness for C9: on the zero-node mission team the freshly scored total
equals the stored total, and the stored best is kept. -/
theorem search_deterministic_and_tie_keeps_first_witness :
    update_best sampleReg (mkMissionTeam []) (some (mkMissionTeam [])) =
      some (mkMissionTeam []) :=
  (search_deterministic_and_tie_keeps_first sampleReg).2 (mkMissionTeam [])
    (mkMissionTeam []) (by decide)

/-- Claim C5: `impossibly_greater` returns `false` whenever the current
assignment has an empty node or no best-so-far exists; otherwise it prunes
exactly when every node's phase marker is ≥ 2 and the current attack-score is
strictly below the best's, or else every node's phase marker is ≥ 3 and either
the survival-score falls strictly short, or the support bound
`support_score + (8 - character_cnt) * 1e4` falls strictly short, or that bound
is exactly equal and the affinity bound
`combat_type_score + (8 - character_cnt) * 1e3` falls strictly short. -/
theorem impossibly_greater_characterization (current : MissionTeam)
    (best : Option MissionTeam) :
    impossibly_greater reg current best = true ↔
      (current.valid_mission_team = true ∧ ∃ b, best = some b ∧
        (((∀ i < current.total_node_cnt, 2 ≤ (current.nodeAt i).node_dfs_phase) ∧
            (current.update_score reg).attack_score < b.attack_score) ∨
          ((∀ i < current.total_node_cnt, 3 ≤ (current.nodeAt i).node_dfs_phase) ∧
            ((current.update_score reg).survival_score < b.survival_score ∨
              (current.update_score reg).support_score
                  + (8 - (current.character_cnt : ℚ)) * 10000 < b.support_score ∨
              ((current.update_score reg).support_score
                  + (8 - (current.character_cnt : ℚ)) * 10000 = b.support_score ∧
                (current.update_score reg).combat_type_score
                  + (8 - (current.character_cnt : ℚ)) * 1000 < b.combat_type_score))))) := by
  unfold impossibly_greater
  by_cases hv : current.valid_mission_team = true
  · rw [if_neg (by simp [hv])]
    cases best with
    | none => simp
    | some b =>
      have hcnt := update_score_character_cnt reg current
      have htot := (update_score_preserves_structure reg current).2.1
      have hAtk : ((List.range (current.update_score reg).total_node_cnt).all
            (fun i => decide (¬ ((current.update_score reg).nodeAt i).node_dfs_phase ≤ 1))
              = true) ↔
          (∀ i < current.total_node_cnt, 2 ≤ (current.nodeAt i).node_dfs_phase) := by
        simp only [List.all_eq_true, List.mem_range, decide_eq_true_eq,
          update_score_nodeAt, htot]
        constructor
        · intro h i hi
          have := h i hi
          omega
        · intro h i hi
          have := h i hi
          omega
      have hSurv : ((List.range (current.update_score reg).total_node_cnt).all
            (fun i => decide (¬ ((current.update_score reg).nodeAt i).node_dfs_phase ≤ 2))
              = true) ↔
          (∀ i < current.total_node_cnt, 3 ≤ (current.nodeAt i).node_dfs_phase) := by
        simp only [List.all_eq_true, List.mem_range, decide_eq_true_eq,
          update_score_nodeAt, htot]
        constructor
        · intro h i hi
          have := h i hi
          omega
        · intro h i hi
          have := h i hi
          omega
      simp only [hv, true_and, Option.some.injEq, hcnt]
      constructor
      · intro h
        refine ⟨b, rfl, ?_⟩
        split at h
        · rename_i hc
          refine Or.inl ⟨hAtk.mp ?_, hc.2⟩
          simpa using hc.1
        · rename_i hc
          split at h
          · rename_i hs
            have hs3 := hSurv.mp (by simpa using hs)
            split at h
            · rename_i h1
              exact Or.inr ⟨hs3, Or.inl h1⟩
            · split at h
              · rename_i h2
                exact Or.inr ⟨hs3, Or.inr (Or.inl h2)⟩
              · split at h
                · rename_i h3
                  split at h
                  · rename_i h4
                    exact Or.inr ⟨hs3, Or.inr (Or.inr ⟨h3, h4⟩)⟩
                  · simp at h
                · simp at h
          · simp at h
      · rintro ⟨b', hb', hcases⟩
        cases hb'
        rcases hcases with ⟨hall, hlt⟩ | ⟨hall, hrest⟩
        · have hb : ((List.range (current.update_score reg).total_node_cnt).all
              (fun i => decide (¬ ((current.update_score reg).nodeAt i).node_dfs_phase ≤ 1))
                = true) := hAtk.mpr hall
          split
          · rfl
          · rename_i hc
            exact absurd ⟨hb, hlt⟩ hc
        · have hb : ((List.range (current.update_score reg).total_node_cnt).all
              (fun i => decide (¬ ((current.update_score reg).nodeAt i).node_dfs_phase ≤ 2))
                = true) := hSurv.mpr hall
          split
          · rfl
          · by_cases k2 : (current.update_score reg).survival_score < b.survival_score
            · rw [if_pos k2]
            · rw [if_neg k2]
              by_cases k3 : (current.update_score reg).support_score
                  + (8 - (current.character_cnt : ℚ)) * 10000 < b.support_score
              · rw [if_pos k3]
              · rw [if_neg k3]
                by_cases k4 : (current.update_score reg).support_score
                    + (8 - (current.character_cnt : ℚ)) * 10000 = b.support_score
                · rw [if_pos k4]
                  by_cases k5 : (current.update_score reg).combat_type_score
                      + (8 - (current.character_cnt : ℚ)) * 1000 < b.combat_type_score
                  · rw [if_pos k5]
                  · tauto
                · rw [if_neg k4]
                  tauto
  · rw [if_pos (by simp [hv])]
    simp [hv]

/-- Claim C2: any non-none result of `search_best_mission_team` assigns every
node at least one character, assigns no character id to more than one node, and
puts at most 4 characters in a node. -/
theorem search_result_valid (hreg : ∀ cid, (reg.char cid).id = cid)
    (node_combat_types : List (List Nat)) (config_module_list : List TeamModule)
    (res : List (List Character))
    (h : search_best_mission_team reg node_combat_types config_module_list = some res) :
    (∀ l ∈ res, l ≠ []) ∧
    (∀ l ∈ res, l.length ≤ 4) ∧
    (∀ i j, i < res.length → j < res.length → i ≠ j →
      ∀ c1 ∈ res.getD i [], ∀ c2 ∈ res.getD j [], c1.id ≠ c2.id) := by
  unfold search_best_mission_team at h
  cases hd : dfs reg (mkMissionTeam node_combat_types) config_module_list none with
  | none => rw [hd] at h; exact absurd h (by simp)
  | some best =>
    rw [hd] at h
    injection h with h
    subst h
    have hg0 : goodTeam (mkMissionTeam node_combat_types) := by
      constructor
      · intro nt hnt
        rw [show (mkMissionTeam node_combat_types).node_team_list
            = List.replicate node_combat_types.length emptyNodeTeam from rfl] at hnt
        rw [List.eq_of_mem_replicate hnt]
        simp [emptyNodeTeam]
      · intro i j hi hj hij cid hcid
        rw [show (mkMissionTeam node_combat_types).nodeAt i
            = (List.replicate node_combat_types.length emptyNodeTeam).getD i emptyNodeTeam
            from rfl] at hcid
        rw [List.getD_eq_getElem?_getD, List.getElem?_replicate] at hcid
        rcases Nat.lt_or_ge i node_combat_types.length with hlt | hge
        · simp [hlt, emptyNodeTeam] at hcid
        · simp [Nat.not_lt.mpr hge, emptyNodeTeam] at hcid
    have hinv := dfs_inv reg config_module_list (mkMissionTeam node_combat_types) none hg0
      (fun b hb => by simp at hb)
    obtain ⟨hgood, hvalid⟩ := hinv best hd
    have hval : ∀ nt ∈ best.node_team_list, nt.character_cnt ≠ 0 := by
      unfold MissionTeam.valid_mission_team at hvalid
      rw [List.all_eq_true] at hvalid
      intro nt hnt
      simpa using hvalid nt hnt
    refine ⟨?_, ?_, ?_⟩
    · intro l hl
      rcases List.mem_map.mp hl with ⟨nt, hnt, rfl⟩
      have := hval nt hnt
      unfold NodeTeam.character_cnt at this
      unfold NodeTeam.character_list
      intro hempty
      rw [List.map_eq_nil_iff] at hempty
      exact this (by rw [hempty]; rfl)
    · intro l hl
      rcases List.mem_map.mp hl with ⟨nt, hnt, rfl⟩
      have := (hgood.1 nt hnt).2
      unfold NodeTeam.character_list
      simpa using this
    · intro i j hi hj hij c1 hc1 c2 hc2
      rw [List.length_map] at hi hj
      have hgetD : ∀ x, x < best.node_team_list.length →
          (best.node_team_list.map (fun nt => nt.character_list reg)).getD x []
            = (best.nodeAt x).character_list reg := by
        intro x hx
        rw [List.getD_eq_getElem?_getD, List.getElem?_map,
          List.getElem?_eq_getElem hx]
        simp [MissionTeam.nodeAt, List.getD_eq_getElem?_getD, List.getElem?_eq_getElem hx]
      rw [hgetD i hi] at hc1
      rw [hgetD j hj] at hc2
      unfold NodeTeam.character_list at hc1 hc2
      rcases List.mem_map.mp hc1 with ⟨cid1, hcid1, rfl⟩
      rcases List.mem_map.mp hc2 with ⟨cid2, hcid2, rfl⟩
      rw [hreg cid1, hreg cid2]
      intro hcontra
      subst hcontra
      exact hgood.2 i j hi hj hij cid1 hcid1 hcid2

/-- Witness for C2: on a one-node instance with a single one-member module the
search returns that assignment, whose only node list is non-empty. -/
theorem search_result_valid_witness :
    ([(⟨"a", 0, CharacterPath.attack⟩ : Character)] : List Character) ≠ [] :=
  (search_result_valid idReg (fun _ => rfl) [[0]] [⟨"m", "", "", ["a"]⟩]
      [[⟨"a", 0, CharacterPath.attack⟩]] (by decide)).1
    [⟨"a", 0, CharacterPath.attack⟩] (by simp)

/-- Claim C3: the per-node score tiers are exactly: count tier
`(attackers + survivors + supports) * 1e8`; attack tier `1e6` when there is an
attacker, plus `1e7` when some attacker's affinity is in the original required
list, else plus `0.9 * 1e7 / extra_affinity_count` when some attacker matched
only an extra (Silverwolf-granted) affinity and `extra_affinity_count > 0`;
survival tier `1e5` when there is a survivor; support tier `supports * 1e4`;
total = sum of the five tiers.  For the whole mission each tier is the sum over
the nodes when every node is non-empty, and every score field is `0` otherwise. -/
theorem score_formulas :
    (∀ (nt : NodeTeam) (ctl : List Nat),
      (mkNodeTeamScore reg nt ctl).cnt_score
          = (((nt.character_list reg).countP (fun c => decide (c.path = CharacterPath.attack))
            + (nt.character_list reg).countP (fun c => decide (c.path = CharacterPath.survival))
            + (nt.character_list reg).countP (fun c => decide (c.path = CharacterPath.support))
              : Nat) : ℚ) * 100000000 ∧
      (mkNodeTeamScore reg nt ctl).attack_score
          = (if 0 < (nt.character_list reg).countP
                (fun c => decide (c.path = CharacterPath.attack)) then (1000000 : ℚ) else 0)
            + (if 0 < (nt.character_list reg).countP
                  (fun c => decide (c.path = CharacterPath.attack ∧ c.combat_type ∈ ctl)) then
                (10000000 : ℚ)
              else if 0 < (nt.character_list reg).countP
                    (fun c => decide (c.path = CharacterPath.attack ∧ c.combat_type ∉ ctl
                      ∧ c.combat_type ∈ (cal_need_combat_type reg (nt.character_list reg) ctl).1))
                  ∧ 0 < (cal_need_combat_type reg (nt.character_list reg) ctl).2 then
                (9 : ℚ) / 10 * 10000000
                  / ((cal_need_combat_type reg (nt.character_list reg) ctl).2 : ℚ)
              else 0) ∧
      (mkNodeTeamScore reg nt ctl).survival_score
          = (if 0 < (nt.character_list reg).countP
                (fun c => decide (c.path = CharacterPath.survival)) then (100000 : ℚ) else 0) ∧
      (mkNodeTeamScore reg nt ctl).support_score
          = (((nt.character_list reg).countP
              (fun c => decide (c.path = CharacterPath.support)) : Nat) : ℚ) * 10000 ∧
      (mkNodeTeamScore reg nt ctl).total_score
          = (mkNodeTeamScore reg nt ctl).cnt_score + (mkNodeTeamScore reg nt ctl).attack_score
            + (mkNodeTeamScore reg nt ctl).survival_score
            + (mkNodeTeamScore reg nt ctl).support_score
            + (mkNodeTeamScore reg nt ctl).combat_type_score) ∧
    (∀ mt : MissionTeam,
      (mt.update_score reg).cnt_score
          = (if mt.valid_mission_team then ((List.range mt.node_combat_types.length).map (fun i =>
              (mkNodeTeamScore reg (mt.nodeAt i) (mt.node_combat_types.getD i [])).cnt_score)).sum
            else 0) ∧
      (mt.update_score reg).attack_score
          = (if mt.valid_mission_team then ((List.range mt.node_combat_types.length).map (fun i =>
              (mkNodeTeamScore reg (mt.nodeAt i) (mt.node_combat_types.getD i [])).attack_score)).sum
            else 0) ∧
      (mt.update_score reg).survival_score
          = (if mt.valid_mission_team then ((List.range mt.node_combat_types.length).map (fun i =>
              (mkNodeTeamScore reg (mt.nodeAt i) (mt.node_combat_types.getD i [])).survival_score)).sum
            else 0) ∧
      (mt.update_score reg).support_score
          = (if mt.valid_mission_team then ((List.range mt.node_combat_types.length).map (fun i =>
              (mkNodeTeamScore reg (mt.nodeAt i) (mt.node_combat_types.getD i [])).support_score)).sum
            else 0) ∧
      (mt.update_score reg).combat_type_score
          = (if mt.valid_mission_team then ((List.range mt.node_combat_types.length).map (fun i =>
              (mkNodeTeamScore reg (mt.nodeAt i)
                (mt.node_combat_types.getD i [])).combat_type_score)).sum
            else 0) ∧
      (mt.update_score reg).total_score
          = (if mt.valid_mission_team then ((List.range mt.node_combat_types.length).map (fun i =>
              (mkNodeTeamScore reg (mt.nodeAt i) (mt.node_combat_types.getD i [])).total_score)).sum
            else 0)) := by
  constructor
  · intro nt ctl
    obtain ⟨e1, e2, e3, e4, e5, e6, e7, e8⟩ := cal_character_cnt_spec ctl
      (cal_need_combat_type reg (nt.character_list reg) ctl).1 (nt.character_list reg)
      { zeroNodeTeamScore with
        combat_type_not_need_cnt := (cal_need_combat_type reg (nt.character_list reg) ctl).2 }
    refine ⟨?_, ?_, ?_, ?_, ?_⟩ <;>
      simp only [mkNodeTeamScore, cal_total_score, e1, e2, e3, e4, e5, e6, e7, e8] <;>
      simp [zeroNodeTeamScore]
  · intro mt
    by_cases hv : mt.valid_mission_team = true
    · obtain ⟨j1, j2, j3, j4, j5, j6⟩ := update_score_fold_sum reg mt
        (List.range mt.node_combat_types.length)
        { mt with
          cnt_score := 0, attack_score := 0, survival_score := 0
          support_score := 0, combat_type_score := 0, total_score := 0 } rfl rfl
      have hu : mt.update_score reg = (List.range mt.node_combat_types.length).foldl
          (update_score_step reg)
          { mt with
            cnt_score := 0, attack_score := 0, survival_score := 0
            support_score := 0, combat_type_score := 0, total_score := 0 } := by
        unfold MissionTeam.update_score
        rw [if_neg (by simp [hv])]
      rw [hu]
      simp [hv, j1, j2, j3, j4, j5, j6]
    · have hu : mt.update_score reg = { mt with
          cnt_score := 0, attack_score := 0, survival_score := 0
          support_score := 0, combat_type_score := 0, total_score := 0 } := by
        unfold MissionTeam.update_score
        rw [if_pos (by simp [hv])]
      rw [hu]
      simp [hv]

/-- Claim C4: with Silverwolf in the node's character set, the derived
required-affinity list is the original list plus every member affinity not
already required, and `extra_affinity_count` is the number of distinct such
extras; without Silverwolf the original list is unchanged and the count is 0;
the affinity tier equals `(matched_original_attacker + matched_original_other)
* 1e3`, plus `0.9 * (matched_extra_attacker + matched_extra_other) * 1e3 /
extra_affinity_count` when the count is positive. -/
theorem silverwolf_widening (nt : NodeTeam) (ctl : List Nat) :
    ((nt.character_list reg).any (fun c => c.id = reg.silver_id) = false →
      (cal_need_combat_type reg (nt.character_list reg) ctl).1 = ctl ∧
      (cal_need_combat_type reg (nt.character_list reg) ctl).2 = 0) ∧
    ((nt.character_list reg).any (fun c => c.id = reg.silver_id) = true →
      ((∀ a : Nat, a ∈ (cal_need_combat_type reg (nt.character_list reg) ctl).1 ↔
          (a ∈ ctl ∨ (a ∉ ctl ∧ ∃ c ∈ nt.character_list reg, c.combat_type = a))) ∧
        (cal_need_combat_type reg (nt.character_list reg) ctl).2
          = (((nt.character_list reg).map Character.combat_type).filter
              (fun a => decide (a ∉ ctl))).dedup.length)) ∧
    (mkNodeTeamScore reg nt ctl).combat_type_score
        = (((nt.character_list reg).countP
              (fun c => decide (c.path = CharacterPath.attack ∧ c.combat_type ∈ ctl))
            + (nt.character_list reg).countP
              (fun c => decide (¬ c.path = CharacterPath.attack ∧ c.combat_type ∈ ctl))
              : Nat) : ℚ) * 1000
          + (if 0 < (cal_need_combat_type reg (nt.character_list reg) ctl).2 then
              (9 : ℚ) / 10 * (((nt.character_list reg).countP
                  (fun c => decide (c.path = CharacterPath.attack ∧ c.combat_type ∉ ctl
                    ∧ c.combat_type ∈ (cal_need_combat_type reg (nt.character_list reg) ctl).1))
                + (nt.character_list reg).countP
                  (fun c => decide (¬ c.path = CharacterPath.attack ∧ c.combat_type ∉ ctl
                    ∧ c.combat_type ∈ (cal_need_combat_type reg (nt.character_list reg) ctl).1))
                  : Nat) : ℚ) * 1000
                / ((cal_need_combat_type reg (nt.character_list reg) ctl).2 : ℚ)
            else 0) := by
  refine ⟨?_, ?_, ?_⟩
  · intro hns
    unfold cal_need_combat_type
    rw [if_neg (by simp [hns])]
    exact ⟨rfl, rfl⟩
  · intro hs
    have h1 : (cal_need_combat_type reg (nt.character_list reg) ctl).1
        = ctl ++ ((nt.character_list reg).foldl
          (fun acc c => if c.combat_type ∈ ctl then acc else set_add acc c.combat_type) []) := by
      unfold cal_need_combat_type
      rw [if_pos hs]
    have h2 : (cal_need_combat_type reg (nt.character_list reg) ctl).2
        = ((nt.character_list reg).foldl
          (fun acc c =>
            if c.combat_type ∈ ctl then acc else set_add acc c.combat_type) []).length := by
      unfold cal_need_combat_type
      rw [if_pos hs]
    constructor
    · intro a
      rw [h1, List.mem_append, cal_extras_mem]
      simp
    · rw [h2]
      have hnd : ((nt.character_list reg).foldl
          (fun acc c =>
            if c.combat_type ∈ ctl then acc else set_add acc c.combat_type) []).Nodup :=
        cal_extras_nodup ctl (nt.character_list reg) [] (by simp)
      have hndd : (((nt.character_list reg).map Character.combat_type).filter
          (fun a => decide (a ∉ ctl))).dedup.Nodup := List.nodup_dedup _
      have hset : ((nt.character_list reg).foldl
          (fun acc c =>
            if c.combat_type ∈ ctl then acc else set_add acc c.combat_type) []).toFinset
          = (((nt.character_list reg).map Character.combat_type).filter
              (fun a => decide (a ∉ ctl))).dedup.toFinset := by
        ext a
        rw [List.mem_toFinset, List.mem_toFinset, cal_extras_mem, List.mem_dedup,
          List.mem_filter, List.mem_map]
        constructor
        · rintro (h | ⟨hna, c, hc, rfl⟩)
          · simp at h
          · exact ⟨⟨c, hc, rfl⟩, by simpa using hna⟩
        · rintro ⟨⟨c, hc, rfl⟩, hna⟩
          exact Or.inr ⟨by simpa using hna, c, hc, rfl⟩
      calc ((nt.character_list reg).foldl
            (fun acc c =>
              if c.combat_type ∈ ctl then acc else set_add acc c.combat_type) []).length
          = ((nt.character_list reg).foldl
              (fun acc c =>
                if c.combat_type ∈ ctl then acc else set_add acc c.combat_type) []).toFinset.card
            := (List.toFinset_card_of_nodup hnd).symm
        _ = (((nt.character_list reg).map Character.combat_type).filter
              (fun a => decide (a ∉ ctl))).dedup.toFinset.card := by rw [hset]
        _ = (((nt.character_list reg).map Character.combat_type).filter
              (fun a => decide (a ∉ ctl))).dedup.length := List.toFinset_card_of_nodup hndd
  · obtain ⟨e1, e2, e3, e4, e5, e6, e7, e8⟩ := cal_character_cnt_spec ctl
      (cal_need_combat_type reg (nt.character_list reg) ctl).1 (nt.character_list reg)
      { zeroNodeTeamScore with
        combat_type_not_need_cnt := (cal_need_combat_type reg (nt.character_list reg) ctl).2 }
    simp only [mkNodeTeamScore, cal_total_score, e1, e2, e3, e4, e5, e6, e7, e8]
    simp [zeroNodeTeamScore]

/-- Witness for C4: on `silverNodeTeam` with required list `[0]`, Silverwolf is
present and the recorded extra-affinity count equals the number of distinct
extra affinities (here 1). -/
theorem silverwolf_widening_witness :
    (cal_need_combat_type sampleReg (silverNodeTeam.character_list sampleReg) [0]).2
      = (((silverNodeTeam.character_list sampleReg).map Character.combat_type).filter
          (fun a => decide (a ∉ ([0] : List Nat)))).dedup.length :=
  ((silverwolf_widening sampleReg silverNodeTeam [0]).2.1 (by decide)).2

/-- Claim C7: a module's search category is phase 0 when it has an attacker,
else 1 when it contains Silverwolf, else 2 when it has a survivor, else 3; a
module is placed into a node only when the node's phase marker is at most the
module's category, the node's phase is overwritten with the category for the
recursive call (sibling branches of the pure recursion reuse the unmodified
team, which is the backtracking restore), and the phase markers never decrease
along a search step. -/
theorem module_category_and_phase_monotonic :
    (∀ m : TeamModule, next_node_phase reg m =
        (if m.with_attack reg then 0
          else if m.with_silver reg then 1
          else if m.with_survival reg then 2
          else 3)) ∧
    (∀ (current : MissionTeam) (node_idx : Nat) (m : TeamModule) (current2 : MissionTeam),
      node_idx < current.node_team_list.length →
      include_step reg current node_idx m = some current2 →
        (current.nodeAt node_idx).node_dfs_phase ≤ next_node_phase reg m ∧
        (current2.nodeAt node_idx).node_dfs_phase = next_node_phase reg m ∧
        (∀ j, j ≠ node_idx → current2.nodeAt j = current.nodeAt j) ∧
        (∀ j, (current.nodeAt j).node_dfs_phase ≤ (current2.nodeAt j).node_dfs_phase)) := by
  constructor
  · intro m
    by_cases ha : m.with_attack reg = true <;>
      by_cases hw : m.with_silver reg = true <;>
      by_cases hs : m.with_survival reg = true <;>
      simp [next_node_phase, ha, hw, hs]
  · intro current k m current2 hin h
    obtain ⟨hguard, hok, heq⟩ := include_step_some reg current k m current2 h
    obtain ⟨hlist, -, -⟩ := add_to_node_true current k m hok
    have hlen : (current.add_to_node k m).2.node_team_list.length
        = current.node_team_list.length := (add_to_node_preserves_frame current k m).2.2
    have hself : current2.nodeAt k = { (current.add_to_node k m).2.nodeAt k with
        node_dfs_phase := next_node_phase reg m } := by
      rw [heq]
      show ((current.add_to_node k m).2.node_team_list.set k _).getD k emptyNodeTeam = _
      rw [getD_set_self]
      omega
    have hother : ∀ j, j ≠ k → current2.nodeAt j = current.nodeAt j := by
      intro j hj
      rw [heq]
      show ((current.add_to_node k m).2.node_team_list.set k _).getD j emptyNodeTeam = _
      rw [getD_set_ne _ _ _ _ _ hj]
      show (current.add_to_node k m).2.nodeAt j = current.nodeAt j
      unfold MissionTeam.nodeAt
      rw [hlist, getD_set_ne _ _ _ _ _ hj]
    refine ⟨hguard, by rw [hself], hother, ?_⟩
    intro j
    by_cases hj : j = k
    · subst hj
      rw [hself]
      exact hguard
    · rw [hother j hj]

/-- Witness for C7: placing the attacker module into node 0 of the empty
two-node mission team stamps the node with the module's category. -/
theorem module_category_and_phase_monotonic_witness :
    (((include_step sampleReg (mkMissionTeam sampleCombatTypes) 0 sampleModule1).getD
        (mkMissionTeam sampleCombatTypes)).nodeAt 0).node_dfs_phase
      = next_node_phase sampleReg sampleModule1 :=
  ((module_category_and_phase_monotonic sampleReg).2 (mkMissionTeam sampleCombatTypes) 0
    sampleModule1 _ (by decide) (by decide)).2.1

/-- Claim C1 (refuted, code bug): the pruned search misses the true optimum.
On the `sampleReg` instance with modules `[m1, m2, m3, m4]` the pruned search
returns a team of total score 611141000, while the same search without the
`impossibly_greater` pruning finds a valid assignment of total score 700160000:
after the attacker-module branch establishes a best, every path that skips the
attacker module reaches a valid 2-node state whose phases are all ≥ 2, and is
pruned on `attack_score` before the remaining support modules can push the
dominant character-count tier past the stored best. -/
theorem pruned_search_misses_optimum :
    (dfs sampleReg (mkMissionTeam sampleCombatTypes)
        [sampleModule1, sampleModule2, sampleModule3, sampleModule4] none).map
      (fun mt => mt.total_score) = some (611141000 : ℚ) ∧
    (dfs_exhaustive sampleReg (mkMissionTeam sampleCombatTypes)
        [sampleModule1, sampleModule2, sampleModule3, sampleModule4] none).map
      (fun mt => mt.total_score) = some (700160000 : ℚ) ∧
    (611141000 : ℚ) < 700160000 := by
  refine ⟨by decide, by decide, by decide⟩

end ForgottenHall
